import Mathlib

/-!
Verification of the WHSO survey front end chat client
(`src/services/websocketService.ts`, the chat composable and the polling
composable). Each TypeScript function relevant to the verified claims is
embedded as an executable Lean definition; stateful methods become
functions on explicit state records.
-/

namespace WHSO

/-! ## Chat WebSocket reconnection state
Fields of `NotificationWebSocketService` that drive chat reconnection. -/

/-- Field `maxReconnectAttempts` of `NotificationWebSocketService`. -/
def maxReconnectAttempts : Nat := 5

/-- Field `reconnectInterval` of `NotificationWebSocketService` (ms). -/
def reconnectInterval : Nat := 1000

/-- The mutable fields of the service that the chat reconnection logic
reads and writes. -/
structure ChatState where
  isChatIntentionalClose : Bool
  currentThreadId : Option String
  reconnectAttempts : Nat
deriving DecidableEq, Repr

/-- Method `scheduleChatReconnect`: returns early when no thread is
current; otherwise increments `reconnectAttempts` and computes the delay
`Math.min(reconnectInterval * 2 ** (reconnectAttempts - 1), 30000)` for the
timer it arms. The result pairs the new state with the scheduled delay,
`none` when nothing was scheduled. -/
def scheduleChatReconnect (s : ChatState) : ChatState × Option Nat :=
  match s.currentThreadId with
  | none => (s, none)
  | some _ =>
      let attempts := s.reconnectAttempts + 1
      let delay := min (reconnectInterval * 2 ^ (attempts - 1)) 30000
      ({ s with reconnectAttempts := attempts }, some delay)

/-- Method `handleChatClose`: schedules a reconnect only when the close was
not intentional, the close code is not 1000 and fewer than
`maxReconnectAttempts` attempts were made. -/
def handleChatClose (s : ChatState) (code : Nat) : ChatState × Option Nat :=
  if !s.isChatIntentionalClose && code != 1000 &&
      s.reconnectAttempts < maxReconnectAttempts then
    scheduleChatReconnect s
  else
    (s, none)

/-- Method `disconnectFromChat`: marks the close as intentional, closes the
socket and clears the current thread id. -/
def disconnectFromChat (s : ChatState) : ChatState :=
  { s with isChatIntentionalClose := true, currentThreadId := none }

/-- Method `connectToChat` (its normal path, once a token is available):
after optionally disconnecting from a previous thread, it clears
`isChatIntentionalClose` and records the thread id. The conditional
disconnect of the previous thread has no net effect on these fields
because both are overwritten right after. -/
def connectToChat (s : ChatState) (tid : String) : ChatState :=
  { s with isChatIntentionalClose := false, currentThreadId := some tid }

/-- Method `scheduleNotificationReconnect`: increments
`notificationReconnectAttempts` and computes the uncapped delay
`reconnectInterval * 2 ** (notificationReconnectAttempts - 1)`. -/
def scheduleNotificationReconnect (attempts : Nat) : Nat × Nat :=
  let a := attempts + 1
  (a, reconnectInterval * 2 ^ (a - 1))

/-- External events that drive the chat reconnection state: a call to
`connectToChat`, a call to `disconnectFromChat`, a socket close event
handled by `handleChatClose`, and the firing of a reconnect timer armed by
`scheduleChatReconnect`. -/
inductive ChatEvent where
  | connect (tid : String)
  | disconnect
  | close (code : Nat)
  | timerFire
deriving DecidableEq, Repr

/-- One step of the chat client: the Boolean records whether this step
scheduled a reconnection. The `timerFire` case models the `setTimeout`
callback of `scheduleChatReconnect`, which calls `connectToChat` only when
the close is not intentional and a thread id is still set. -/
def chatStep (s : ChatState) (e : ChatEvent) : ChatState × Bool :=
  match e with
  | .connect tid => (connectToChat s tid, false)
  | .disconnect => (disconnectFromChat s, false)
  | .close code =>
      let r := handleChatClose s code
      (r.1, r.2.isSome)
  | .timerFire =>
      match s.currentThreadId with
      | some tid =>
          if !s.isChatIntentionalClose then (connectToChat s tid, false)
          else (s, false)
      | none => (s, false)

/-- Run a trace of events. -/
def chatRun (s : ChatState) : List ChatEvent → ChatState
  | [] => s
  | e :: es => chatRun (chatStep s e).1 es

/-- Whether any step of the trace schedules a reconnection. -/
def scheduledInTrace (s : ChatState) : List ChatEvent → Bool
  | [] => false
  | e :: es => (chatStep s e).2 || scheduledInTrace (chatStep s e).1 es

/-- Any event other than `connect` keeps `isChatIntentionalClose` set and
schedules nothing once it is set. -/
lemma chatStep_preserves_intentional (s : ChatState) (e : ChatEvent)
    (hs : s.isChatIntentionalClose = true)
    (hne : ∀ tid, e ≠ ChatEvent.connect tid) :
    (chatStep s e).1.isChatIntentionalClose = true ∧ (chatStep s e).2 = false := by
  cases e with
  | connect tid => exact absurd rfl (hne tid)
  | disconnect =>
      simp [chatStep, disconnectFromChat]
  | close code =>
      simp [chatStep, handleChatClose, hs]
  | timerFire =>
      cases h : s.currentThreadId with
      | none => simp [chatStep, h, hs]
      | some tid => simp [chatStep, h, hs]

/-- Once `isChatIntentionalClose` is set, a trace free of `connect` events
never schedules a reconnection. -/
lemma scheduledInTrace_intentional (s : ChatState) (es : List ChatEvent)
    (hs : s.isChatIntentionalClose = true)
    (hne : ∀ tid, ChatEvent.connect tid ∉ es) :
    scheduledInTrace s es = false := by
  induction es generalizing s with
  | nil => rfl
  | cons e es ih =>
      have hthis : ∀ tid, e ≠ ChatEvent.connect tid := by
        intro tid he
        exact hne tid (he ▸ List.mem_cons_self e es)
      obtain ⟨h1, h2⟩ := chatStep_preserves_intentional s e hs hthis
      have htail : ∀ tid, ChatEvent.connect tid ∉ es := by
        intro tid hmem
        exact hne tid (List.mem_cons_of_mem _ hmem)
      simp [scheduledInTrace, h2, ih _ h1 htail]

/-- Claim C1: the delay scheduled before the n-th chat reconnection attempt
is min (1000 * 2 ^ (n - 1)) 30000 milliseconds, and the delay before the
n-th notification reconnection attempt is 1000 * 2 ^ (n - 1) milliseconds;
the n-th attempt is scheduled from a state recording n - 1 prior attempts. -/
theorem c1_reconnect_backoff (s : ChatState) (tid : String) (n : Nat)
    (_hn : 1 ≤ n) (hthread : s.currentThreadId = some tid)
    (hatt : s.reconnectAttempts = n - 1) :
    (scheduleChatReconnect s).2 = some (min (1000 * 2 ^ (n - 1)) 30000) ∧
    (scheduleNotificationReconnect (n - 1)).2 = 1000 * 2 ^ (n - 1) := by
  constructor
  · simp [scheduleChatReconnect, hthread, hatt, reconnectInterval]
  · simp [scheduleNotificationReconnect, reconnectInterval]

/-- Witness for C1 at the third attempt. -/
theorem c1_reconnect_backoff_witness :
    (scheduleChatReconnect ⟨false, some "t", 2⟩).2 = some (min (1000 * 2 ^ 2) 30000) ∧
    (scheduleNotificationReconnect 2).2 = 1000 * 2 ^ 2 :=
  c1_reconnect_backoff ⟨false, some "t", 2⟩ "t" 3 (by decide) rfl rfl

/-- Claim C2: a close event schedules a chat reconnection only when the
close was not intentional, the close code is not 1000 and fewer than 5
attempts were made; and after a `disconnectFromChat`, no trace free of
`connectToChat` calls ever schedules a reconnection. -/
theorem c2_retry_gate_and_disconnect_final :
    (∀ (s : ChatState) (code : Nat),
        (chatStep s (ChatEvent.close code)).2 = true →
        s.isChatIntentionalClose = false ∧ code ≠ 1000 ∧
          s.reconnectAttempts < maxReconnectAttempts) ∧
    (∀ (s : ChatState) (es : List ChatEvent),
        (∀ tid, ChatEvent.connect tid ∉ es) →
        scheduledInTrace (chatStep s ChatEvent.disconnect).1 es = false) := by
  constructor
  · intro s code h
    simp only [chatStep, handleChatClose] at h
    split at h
    · next hcond =>
        simp only [Bool.and_eq_true, Bool.not_eq_true', bne_iff_ne, ne_eq,
          decide_eq_true_eq] at hcond
        exact ⟨hcond.1.1, hcond.1.2, hcond.2⟩
    · simp at h
  · intro s es hne
    apply scheduledInTrace_intentional _ _ _ hne
    simp [chatStep, disconnectFromChat]

/-- Witness for C2: the gate conditions hold at a concrete scheduling
state, and a concrete post-disconnect trace schedules nothing. -/
theorem c2_retry_gate_and_disconnect_final_witness :
    ((ChatState.mk false (some "t") 0).isChatIntentionalClose = false ∧
      (1006 : Nat) ≠ 1000 ∧ (0 : Nat) < maxReconnectAttempts) ∧
    scheduledInTrace (chatStep ⟨false, some "t", 0⟩ ChatEvent.disconnect).1
      [ChatEvent.close 1006, ChatEvent.timerFire] = false :=
  ⟨c2_retry_gate_and_disconnect_final.1 ⟨false, some "t", 0⟩ 1006 (by decide),
   c2_retry_gate_and_disconnect_final.2 ⟨false, some "t", 0⟩
     [ChatEvent.close 1006, ChatEvent.timerFire] (by intro tid; simp)⟩

/-! ## Chat message handling and heartbeat -/

/-- An incoming chat WebSocket message after JSON parsing: its `type`
field and its optional `message` field (used by the error branch). -/
structure ChatInMsg where
  type : String
  message : Option String
deriving DecidableEq, Repr

/-- Method `sendChat`: serialises and sends a frame only when the socket is
in the OPEN state. Sent frames are recorded by their `type` field. -/
def sendChat (isOpen : Bool) (msgType : String) : List String :=
  if isOpen then [msgType] else []

/-- Method `sendChatPong`: sends a frame of type `pong`. -/
def sendChatPong (isOpen : Bool) : List String :=
  sendChat isOpen "pong"

/-- Model of `message.toLowerCase().includes(p)` in the error branch of
`handleChatMessage`. -/
def containsPing (m : String) : Bool :=
  decide ("ping".data <:+: m.toLower.data)

/-- Method `handleChatMessage`: the dispatch switch on the parsed message
type. The result pairs the list of frame types sent back on the socket
with the list of event names triggered. The `ChatEventType` enum constants
equal the quoted literals, so each pair of switch cases collapses to one
test. -/
def handleChatMessage (isOpen : Bool) (data : ChatInMsg) : List String × List String :=
  if data.type = "chat.unread.update" then ([], ["chat.unread.update"])
  else if data.type = "connection.established" then ([], ["chat.connection.established"])
  else if data.type = "message.new" then ([], ["chat.message.new"])
  else if data.type = "message.updated" then ([], ["chat.message.updated"])
  else if data.type = "message.deleted" then ([], ["chat.message.deleted"])
  else if data.type = "typing.start" then ([], ["chat.typing.start"])
  else if data.type = "typing.stop" then ([], ["chat.typing.stop"])
  else if data.type = "receipt.read" then ([], ["chat.receipt.read"])
  else if data.type = "reaction.added" then ([], ["chat.reaction.added"])
  else if data.type = "reaction.removed" then ([], ["chat.reaction.removed"])
  else if data.type = "member.added" then ([], ["chat.member.added"])
  else if data.type = "member.removed" then ([], ["chat.member.removed"])
  else if data.type = "thread.updated" then ([], ["chat.thread.updated"])
  else if data.type = "ping" then (sendChatPong isOpen, ["chat.ping"])
  else if data.type = "pong" then ([], ["chat.pong"])
  else if data.type = "error" then
    match data.message with
    | some m => if containsPing m then ([], []) else ([], ["chat.error"])
    | none => ([], ["chat.error"])
  else ([], ["chat." ++ data.type])

/-- The period, in milliseconds, of the interval armed by
`startChatHeartbeat`. -/
def chatHeartbeatIntervalMs : Nat := 30000

/-- The callback of the interval armed by `startChatHeartbeat`: it sends a
frame of type `ping` when the socket is in the OPEN state. -/
def chatHeartbeatTick (isOpen : Bool) : List String :=
  if isOpen then sendChat isOpen "ping" else []

/-- Claim C3: on a message of type `ping` received while the socket is
open, the service sends back a pong frame on the same socket and triggers
the `chat.ping` event; and the heartbeat interval fires every 30000
milliseconds, sending a ping frame while the socket is open. -/
theorem c3_ping_pong_keepalive :
    (∀ d : ChatInMsg, d.type = "ping" →
        handleChatMessage true d = (["pong"], ["chat.ping"])) ∧
    chatHeartbeatTick true = ["ping"] ∧
    chatHeartbeatIntervalMs = 30000 := by
  refine ⟨?_, rfl, rfl⟩
  intro d hd
  simp [handleChatMessage, hd, sendChatPong, sendChat]

/-- Witness for C3 at a concrete ping message. -/
theorem c3_ping_pong_keepalive_witness :
    handleChatMessage true ⟨"ping", none⟩ = (["pong"], ["chat.ping"]) ∧
    chatHeartbeatTick true = ["ping"] ∧
    chatHeartbeatIntervalMs = 30000 :=
  ⟨c3_ping_pong_keepalive.1 ⟨"ping", none⟩ rfl,
   c3_ping_pong_keepalive.2.1, c3_ping_pong_keepalive.2.2⟩

/-! ## Event listener registry
Callbacks are identified by numeric ids; the semantics of an invocation is
a function from a world state to either a new state or a thrown error. -/

/-- The `Map` lookup `eventListeners.get(event)`, on an association-list
model of the JS `Map`. -/
def mapGet (m : List (String × List Nat)) (e : String) : Option (List Nat) :=
  match m with
  | [] => none
  | (k, v) :: rest => if k = e then some v else mapGet rest e

/-- The `Map` update `eventListeners.set(event, v)`. -/
def mapSet (m : List (String × List Nat)) (e : String) (v : List Nat) :
    List (String × List Nat) :=
  match m with
  | [] => [(e, v)]
  | (k, w) :: rest => if k = e then (k, v) :: rest else (k, w) :: mapSet rest e v

/-- Method `on`: creates the entry when absent, then pushes the callback to
the end of the list for the event. -/
def onListener (m : List (String × List Nat)) (e : String) (c : Nat) :
    List (String × List Nat) :=
  mapSet m e (((mapGet m e).getD []) ++ [c])

/-- `indexOf` followed by `splice(index, 1)`: removes the first occurrence
when present. -/
def removeFirst (l : List Nat) (c : Nat) : List Nat :=
  match l with
  | [] => []
  | x :: xs => if x = c then xs else x :: removeFirst xs c

/-- Method `off`: removes the first occurrence of the callback when the
event has an entry. -/
def offListener (m : List (String × List Nat)) (e : String) (c : Nat) :
    List (String × List Nat) :=
  match mapGet m e with
  | none => m
  | some l => mapSet m e (removeFirst l c)

/-- The `forEach` loop of `trigger`: runs each callback in order inside a
try/catch, so a thrown error leaves the state as it was and the loop
continues. The second component logs the callbacks invoked, in order. -/
def runCallbacks {σ : Type} (sem : Nat → σ → Except String σ) :
    List Nat → σ → σ × List Nat
  | [], s => (s, [])
  | c :: cs, s =>
      let s' := match sem c s with
        | .ok t => t
        | .error _ => s
      let r := runCallbacks sem cs s'
      (r.1, c :: r.2)

/-- Method `trigger`: runs the callbacks registered for the event, if any. -/
def trigger {σ : Type} (m : List (String × List Nat)) (e : String)
    (sem : Nat → σ → Except String σ) (s : σ) : σ × List Nat :=
  match mapGet m e with
  | some cbs => runCallbacks sem cbs s
  | none => (s, [])

lemma runCallbacks_log {σ : Type} (sem : Nat → σ → Except String σ)
    (cbs : List Nat) (s : σ) : (runCallbacks sem cbs s).2 = cbs := by
  induction cbs generalizing s with
  | nil => rfl
  | cons c cs ih => simp [runCallbacks, ih]

lemma mapGet_mapSet (m : List (String × List Nat)) (e : String) (v : List Nat) :
    mapGet (mapSet m e v) e = some v := by
  induction m with
  | nil => simp [mapGet, mapSet]
  | cons kv rest ih =>
      obtain ⟨k, w⟩ := kv
      by_cases hk : k = e
      · simp [mapGet, mapSet, hk]
      · simp [mapGet, mapSet, hk, ih]

/-- Claim C4: `trigger` invokes exactly the callbacks registered for the
event, once each and in registration order, for every callback semantics
including throwing ones; when no callback is registered it leaves the
state unchanged and invokes nothing; and `on` appends to the end of the
registration list. -/
theorem c4_trigger_dispatch :
    (∀ (σ : Type) (sem : Nat → σ → Except String σ)
        (m : List (String × List Nat)) (e : String) (s : σ),
        (trigger m e sem s).2 = (mapGet m e).getD []) ∧
    (∀ (σ : Type) (sem : Nat → σ → Except String σ)
        (m : List (String × List Nat)) (e : String) (s : σ),
        mapGet m e = none → trigger m e sem s = (s, [])) ∧
    (∀ (m : List (String × List Nat)) (e : String) (c : Nat),
        mapGet (onListener m e c) e = some (((mapGet m e).getD []) ++ [c])) := by
  refine ⟨?_, ?_, ?_⟩
  · intro σ sem m e s
    unfold trigger
    cases h : mapGet m e with
    | none => simp
    | some cbs => simp [runCallbacks_log]
  · intro σ sem m e s h
    simp [trigger, h]
  · intro m e c
    exact mapGet_mapSet m e _

/-- Witness for C4: a registry with two callbacks for one event, the first
of which throws; both are invoked in order, and an unregistered event
changes nothing. -/
theorem c4_trigger_dispatch_witness :
    (trigger [("a", [1, 2])] "a"
        (fun c n => if c = 1 then Except.error "boom" else Except.ok (n + c)) 0).2
      = (mapGet [("a", [1, 2])] "a").getD [] ∧
    trigger [("a", [1, 2])] "b"
        (fun c n => if c = 1 then Except.error "boom" else Except.ok (n + c)) 0
      = (0, []) ∧
    mapGet (onListener [("a", [1, 2])] "a" 3) "a"
      = some (((mapGet [("a", [1, 2])] "a").getD []) ++ [3]) :=
  ⟨c4_trigger_dispatch.1 Nat _ [("a", [1, 2])] "a" 0,
   c4_trigger_dispatch.2.1 Nat _ [("a", [1, 2])] "b" 0 (by decide),
   c4_trigger_dispatch.2.2 [("a", [1, 2])] "a" 3⟩

/-! ## Polling keyed on document visibility
State of the polling composable: the `document.hidden` flag, whether each
interval is armed, the thread captured by the message interval, the
selected thread, and whether the thread list is non-empty. -/

structure PollState where
  hidden : Bool
  threadPollingActive : Bool
  messagePollingActive : Bool
  messagePollingThread : Option String
  selectedThreadId : Option String
  threadsNonEmpty : Bool
deriving DecidableEq, Repr

/-- A poll request issued to the backend. -/
inductive PollFetch where
  | fetchThreads
  | fetchMessages (tid : String)
deriving DecidableEq, Repr

/-- Period of the interval armed by `startThreadPolling` (ms). -/
def threadPollIntervalMs : Nat := 30000

/-- Period of the interval armed by `startMessagePolling` (ms). -/
def messagePollIntervalMs : Nat := 3000

/-- The callback of the thread polling interval: it fetches the thread
list only when the document is not hidden. The interval only fires while
armed. -/
def threadPollTick (s : PollState) : Option PollFetch :=
  if s.threadPollingActive ∧ ¬s.hidden then some PollFetch.fetchThreads else none

/-- The callback of the message polling interval armed for `tid`: it
fetches messages only when the document is not hidden and the selected
thread still equals the polled thread. -/
def messagePollTick (s : PollState) (tid : String) : Option PollFetch :=
  if s.messagePollingActive ∧ s.messagePollingThread = some tid ∧
      ¬s.hidden ∧ s.selectedThreadId = some tid then
    some (PollFetch.fetchMessages tid)
  else none

/-- Function `stopThreadPolling`. -/
def stopThreadPolling (s : PollState) : PollState :=
  { s with threadPollingActive := false }

/-- Function `stopMessagePolling`. -/
def stopMessagePolling (s : PollState) : PollState :=
  { s with messagePollingActive := false, messagePollingThread := none }

/-- Function `startThreadPolling`: returns early when already armed. -/
def startThreadPolling (s : PollState) : PollState :=
  if s.threadPollingActive then s else { s with threadPollingActive := true }

/-- Function `startMessagePolling`: stops any existing interval, then arms
one for the given thread. -/
def startMessagePolling (s : PollState) (tid : String) : PollState :=
  let s := stopMessagePolling s
  { s with messagePollingActive := true, messagePollingThread := some tid }

/-- Function `handleVisibilityChange`, invoked when `document.hidden`
becomes `nowHidden`: on hidden it stops both intervals; on visible it
restarts them when there are threads, respectively a selected thread. -/
def handleVisibilityChange (s : PollState) (nowHidden : Bool) : PollState :=
  let s := { s with hidden := nowHidden }
  if nowHidden then
    stopMessagePolling (stopThreadPolling s)
  else
    let s := if s.threadsNonEmpty then startThreadPolling s else s
    match s.selectedThreadId with
    | some tid => startMessagePolling s tid
    | none => s

/-- Claim C5: the thread poll fetches only when the document is not
hidden; the message poll fetches only when additionally the selected
thread equals the polled thread; becoming hidden stops both intervals; and
no poll request at all is issued while the document is hidden. -/
theorem c5_polling_visibility :
    (∀ s : PollState, threadPollTick s ≠ none → s.hidden = false) ∧
    (∀ (s : PollState) (tid : String) (f : PollFetch),
        messagePollTick s tid = some f →
        s.hidden = false ∧ s.selectedThreadId = some tid) ∧
    (∀ s : PollState,
        (handleVisibilityChange s true).threadPollingActive = false ∧
        (handleVisibilityChange s true).messagePollingActive = false) ∧
    (∀ (s : PollState) (tid : String), s.hidden = true →
        threadPollTick s = none ∧ messagePollTick s tid = none) := by
  refine ⟨?_, ?_, ?_, ?_⟩
  · intro s h
    by_cases hh : s.hidden
    · exfalso
      exact h (by simp [threadPollTick, hh])
    · simpa using hh
  · intro s tid f h
    simp only [messagePollTick] at h
    split at h
    · next hc => exact ⟨by simpa using hc.2.2.1, hc.2.2.2⟩
    · exact absurd h (by simp)
  · intro s
    simp [handleVisibilityChange, stopThreadPolling, stopMessagePolling]
  · intro s tid hh
    constructor
    · simp [threadPollTick, hh]
    · simp [messagePollTick, hh]

/-- Witness for C5 at concrete states. -/
theorem c5_polling_visibility_witness :
    ((PollState.mk false true false none none true).hidden = false) ∧
    ((PollState.mk false false true (some "t") (some "t") true).hidden = false ∧
      (PollState.mk false false true (some "t") (some "t") true).selectedThreadId
        = some "t") ∧
    ((handleVisibilityChange (PollState.mk false true true (some "t") (some "t") true)
        true).threadPollingActive = false ∧
      (handleVisibilityChange (PollState.mk false true true (some "t") (some "t") true)
        true).messagePollingActive = false) ∧
    (threadPollTick (PollState.mk true true true (some "t") (some "t") true) = none ∧
      messagePollTick (PollState.mk true true true (some "t") (some "t") true) "t"
        = none) :=
  ⟨c5_polling_visibility.1 (PollState.mk false true false none none true) (by decide),
   c5_polling_visibility.2.1 (PollState.mk false false true (some "t") (some "t") true)
     "t" (PollFetch.fetchMessages "t") (by decide),
   c5_polling_visibility.2.2.1 (PollState.mk false true true (some "t") (some "t") true),
   c5_polling_visibility.2.2.2 (PollState.mk true true true (some "t") (some "t") true)
     "t" rfl⟩

/-! ## Chat messages
The `Message` interface of the chat API, restricted to the fields the
verified operations read: id, thread, sender id, content and reactions.
Reaction users are identified by their numeric id. -/

structure Reaction where
  emoji : String
  users : List Nat
deriving DecidableEq, Repr

structure Message where
  id : String
  thread : String
  sender : Nat
  content : String
  reactions : List Reaction
deriving DecidableEq, Repr

instance : Inhabited Message := ⟨⟨"", "", 0, "", []⟩⟩

instance : Inhabited Reaction := ⟨⟨"", []⟩⟩

/-- JS `Array.prototype.findIndex`, with `none` for -1. -/
def findIndexL {α : Type} (p : α → Bool) : List α → Option Nat
  | [] => none
  | a :: as => if p a then some 0 else (findIndexL p as).map (· + 1)

/-- Model of `id.startsWith(t)` for the temp-message tag: a character-list
prefix test. -/
def startsWithTemp (s : String) : Bool :=
  decide (s.data.take 5 = "temp-".data)

/-- The optimistic push of `sendMessage`: the temporary message is appended
to the list. -/
def sendMessageOptimistic (pre : List Message) (tempMsg : Message) : List Message :=
  pre ++ [tempMsg]

/-- Function `sendMessage` of the chat composable, for a selected thread:
it pushes the temporary message, then on server success replaces the entry
whose id equals the temporary id with the server message and returns true,
and on server failure removes every message whose id carries the temp tag
and returns false. -/
def sendMessageModel (pre : List Message) (tempMsg : Message)
    (result : Except Unit Message) : List Message × Bool :=
  let withTemp := sendMessageOptimistic pre tempMsg
  match result with
  | .ok newMessage =>
      (match findIndexL (fun m => m.id = tempMsg.id) withTemp with
       | some i => withTemp.set i newMessage
       | none => withTemp, true)
  | .error _ =>
      (withTemp.filter (fun m => !startsWithTemp m.id), false)

lemma findIndexL_append_cons {α : Type} (p : α → Bool) (l rest : List α) (x : α)
    (hl : ∀ a ∈ l, p a = false) (hx : p x = true) :
    findIndexL p (l ++ x :: rest) = some l.length := by
  induction l with
  | nil => simp [findIndexL, hx]
  | cons a as ih =>
      have ha : p a = false := hl a (List.mem_cons_self a as)
      have has : ∀ b ∈ as, p b = false := fun b hb => hl b (List.mem_cons_of_mem _ hb)
      simp [findIndexL, ha, ih has]

lemma set_concat {α : Type} (l : List α) (x y : α) :
    (l ++ [x]).set l.length y = l ++ [y] := by
  induction l with
  | nil => rfl
  | cons a as ih => simp [List.set, ih]

/-- Counterexample input for C6: a pre-call list already holding a message
whose id carries the temp tag. -/
def c6PreTemp : Message := ⟨"temp-0", "th", 1, "earlier", []⟩

/-- The temporary message pushed by the failing call. -/
def c6Temp : Message := ⟨"temp-1", "th", 1, "hello", []⟩

/-- Counterexample for C6 as stated: when the pre-call list already holds
a message with the temp tag, the failure path does not restore the
pre-call contents (it removes that message too). -/
theorem c6_rollback_counterexample :
    (sendMessageModel [c6PreTemp] c6Temp (Except.error ())).1 = [] ∧
    [] ≠ [c6PreTemp] := by
  constructor
  · rfl
  · simp

/-- Claim C6 as amended: for a pre-call list in which no message id
carries the temp tag, `sendMessage` appends the temporary message, then on
success replaces it in place by the server message and returns true, and
on failure removes every temp-tagged message, which restores exactly the
pre-call contents, and returns false. -/
theorem c6_optimistic_send_amended (pre : List Message) (tempMsg serverMsg : Message)
    (htemp : startsWithTemp tempMsg.id = true)
    (hpre : ∀ m ∈ pre, startsWithTemp m.id = false) :
    sendMessageOptimistic pre tempMsg = pre ++ [tempMsg] ∧
    sendMessageModel pre tempMsg (Except.ok serverMsg) = (pre ++ [serverMsg], true) ∧
    sendMessageModel pre tempMsg (Except.error ()) = (pre, false) := by
  have hne : ∀ m ∈ pre, (fun m => decide (m.id = tempMsg.id)) m = false := by
    intro m hm
    have hx := hpre m hm
    simp only [decide_eq_false_iff_not]
    intro he
    rw [he, htemp] at hx
    exact absurd hx (by simp)
  refine ⟨rfl, ?_, ?_⟩
  · have hidx : findIndexL (fun m => m.id = tempMsg.id) (pre ++ [tempMsg])
        = some pre.length := by
      have := findIndexL_append_cons (fun m => decide (m.id = tempMsg.id))
        pre [] tempMsg hne (by simp)
      simpa using this
    simp only [sendMessageModel, sendMessageOptimistic, hidx]
    rw [set_concat]
  · simp only [sendMessageModel, sendMessageOptimistic]
    rw [List.filter_append]
    have h1 : pre.filter (fun m => !startsWithTemp m.id) = pre :=
      List.filter_eq_self.mpr (by intro a ha; simp [hpre a ha])
    have h2 : [tempMsg].filter (fun m => !startsWithTemp m.id) = [] := by
      simp [List.filter, htemp]
    rw [h1, h2, List.append_nil]

/-- Witness for the amended C6 at a concrete list. -/
theorem c6_optimistic_send_amended_witness :
    sendMessageOptimistic [⟨"m1", "th", 1, "old", []⟩] c6Temp
      = [⟨"m1", "th", 1, "old", []⟩] ++ [c6Temp] ∧
    sendMessageModel [⟨"m1", "th", 1, "old", []⟩] c6Temp
        (Except.ok ⟨"m2", "th", 1, "hello", []⟩)
      = ([⟨"m1", "th", 1, "old", []⟩] ++ [⟨"m2", "th", 1, "hello", []⟩], true) ∧
    sendMessageModel [⟨"m1", "th", 1, "old", []⟩] c6Temp (Except.error ())
      = ([⟨"m1", "th", 1, "old", []⟩], false) :=
  c6_optimistic_send_amended [⟨"m1", "th", 1, "old", []⟩] c6Temp
    ⟨"m2", "th", 1, "hello", []⟩ (by decide) (by decide)

/-! ## Socket-driven versus polling-driven message delivery -/

/-- The effect on the messages list of the `chat.message.new` listener in
`setupWebSocketListeners`: the message is pushed only when it belongs to
the currently selected thread and no message with its id is already
present. -/
def wsMessageNew (selected : String) (cur : List Message) (m : Message) :
    List Message :=
  if m.thread = selected ∧ cur.find? (fun x => x.id == m.id) = none then
    cur ++ [m]
  else cur

/-- Successive delivery of a batch of server messages through the
`chat.message.new` listener. -/
def wsDeliverAll (selected : String) (cur news : List Message) : List Message :=
  news.foldl (wsMessageNew selected) cur

/-- The effect on the messages list of one firing of the poll in
`startMessagePolling`, given the server response (oldest first): it looks
up the current last message id in the response, appends the strictly newer
suffix when found, replaces the whole list when not found and the response
is non-empty, and otherwise changes nothing. -/
def pollMessagesUpdate (cur serverList : List Message) : List Message :=
  match cur.getLast? with
  | none => if serverList.length > 0 then serverList else cur
  | some last =>
      match findIndexL (fun m => m.id == last.id) serverList with
      | some n =>
          if n < serverList.length - 1 then cur ++ serverList.drop (n + 1) else cur
      | none => if serverList.length > 0 then serverList else cur

lemma wsDeliverAll_eq_append (selected : String) :
    ∀ (news cur : List Message),
    (∀ m ∈ news, m.thread = selected) →
    ((cur ++ news).map Message.id).Nodup →
    wsDeliverAll selected cur news = cur ++ news := by
  intro news
  induction news with
  | nil =>
      intro cur _ _
      simp [wsDeliverAll]
  | cons m rest ih =>
      intro cur hthreads hnodup
      have hm : m.thread = selected := hthreads m (List.mem_cons_self m rest)
      have hsplit : (cur.map Message.id ++ (m :: rest).map Message.id).Nodup := by
        simpa [List.map_append] using hnodup
      have hdisj := (List.nodup_append.mp hsplit).2.2
      have hnotin : cur.find? (fun x => x.id == m.id) = none := by
        rw [List.find?_eq_none]
        intro x hx
        simp only [beq_iff_eq]
        intro he
        exact hdisj (List.mem_map_of_mem Message.id hx) (by simp [he])
      have hstep : wsMessageNew selected cur m = cur ++ [m] :=
        if_pos ⟨hm, hnotin⟩
      have hthreads2 : ∀ a ∈ rest, a.thread = selected :=
        fun a ha => hthreads a (List.mem_cons_of_mem _ ha)
      have hnodup2 : (((cur ++ [m]) ++ rest).map Message.id).Nodup := by
        simpa [List.append_assoc] using hnodup
      calc wsDeliverAll selected cur (m :: rest)
      _ = wsDeliverAll selected (wsMessageNew selected cur m) rest := rfl
      _ = wsDeliverAll selected (cur ++ [m]) rest := by rw [hstep]
      _ = (cur ++ [m]) ++ rest := ih (cur ++ [m]) hthreads2 hnodup2
      _ = cur ++ m :: rest := by simp

lemma pollMessagesUpdate_append (cur news : List Message)
    (hnodup : ((cur ++ news).map Message.id).Nodup) :
    pollMessagesUpdate cur (cur ++ news) = cur ++ news := by
  rcases List.eq_nil_or_concat cur with rfl | ⟨ys, x, rfl⟩
  · cases news with
    | nil => rfl
    | cons a rest => simp [pollMessagesUpdate]
  · simp only [List.concat_eq_append] at hnodup ⊢
    have hlast : (ys ++ [x]).getLast? = some x := List.getLast?_concat ys
    have hys : ∀ a ∈ ys, (fun m => m.id == x.id) a = false := by
      have h1 : ((ys ++ [x]).map Message.id ++ news.map Message.id).Nodup := by
        simpa [List.map_append] using hnodup
      have h2 : (ys.map Message.id ++ [x.id]).Nodup := by
        simpa [List.map_append] using (List.nodup_append.mp h1).1
      have hdisj := (List.nodup_append.mp h2).2.2
      intro a ha
      simp only [beq_eq_false_iff_ne, ne_eq]
      intro he
      exact hdisj (List.mem_map_of_mem Message.id ha) (by simp [he])
    have hre : (ys ++ [x]) ++ news = ys ++ x :: news := by simp
    have hidx : findIndexL (fun m => m.id == x.id) ((ys ++ [x]) ++ news)
        = some ys.length := by
      rw [hre]
      exact findIndexL_append_cons _ ys news x hys (by simp)
    cases news with
    | nil =>
        rw [List.append_nil]
        have hidx0 : findIndexL (fun m => m.id == x.id) (ys ++ [x]) = some ys.length := by
          simpa using hidx
        simp [pollMessagesUpdate, hlast, hidx0]
    | cons b rest =>
        have hdrop : ((ys ++ [x]) ++ b :: rest).drop (ys.length + 1) = b :: rest := by
          have h := List.drop_left (ys ++ [x]) (b :: rest)
          simp only [List.length_append, List.length_cons, List.length_nil] at h
          exact h
        simp only [pollMessagesUpdate, hlast, hidx]
        rw [if_pos]
        · rw [hdrop]
        · simp only [List.length_append, List.length_cons]
          omega

/-- Claim C7: given the same current list and the same batch of new
server messages for the selected thread (pairwise distinct ids, none
already present), the WebSocket listener and the polling update leave the
messages list in the same state. -/
theorem c7_ws_poll_equivalence (selected : String) (cur news : List Message)
    (hthreads : ∀ m ∈ news, m.thread = selected)
    (hnodup : ((cur ++ news).map Message.id).Nodup) :
    wsDeliverAll selected cur news = pollMessagesUpdate cur (cur ++ news) := by
  rw [wsDeliverAll_eq_append selected news cur hthreads hnodup,
    pollMessagesUpdate_append cur news hnodup]

/-- Witness for C7 at a concrete list and batch. -/
theorem c7_ws_poll_equivalence_witness :
    wsDeliverAll "th" [⟨"m1", "th", 1, "a", []⟩] [⟨"m2", "th", 2, "b", []⟩]
      = pollMessagesUpdate [⟨"m1", "th", 1, "a", []⟩]
          ([⟨"m1", "th", 1, "a", []⟩] ++ [⟨"m2", "th", 2, "b", []⟩]) :=
  c7_ws_poll_equivalence "th" [⟨"m1", "th", 1, "a", []⟩] [⟨"m2", "th", 2, "b", []⟩]
    (by decide) (by decide)

/-! ## Reactions with WebSocket delivery and REST fallback -/

/-- The user list of the first reaction carrying the given emoji, empty
when no such reaction exists. -/
def usersFor (msg : Message) (emoji : String) : List Nat :=
  match msg.reactions.find? (fun r => r.emoji == emoji) with
  | some r => r.users
  | none => []

/-- The optimistic update of `addReaction` on the targeted message: when a
reaction with the emoji exists, the current user id is pushed to its user
list unless already present; otherwise a new reaction with that single
user is pushed. -/
def applyOptimisticReaction (uid : Nat) (emoji : String) (msg : Message) : Message :=
  match findIndexL (fun r => r.emoji == emoji) msg.reactions with
  | some ri =>
      let r := msg.reactions.getD ri default
      if (r.users.find? (fun u => u == uid)).isSome then msg
      else
        { msg with reactions := msg.reactions.set ri { r with users := r.users ++ [uid] } }
  | none =>
      { msg with reactions := msg.reactions ++ [⟨emoji, [uid]⟩] }

/-- Function `addReaction` of the chat composable: locate the message,
apply the optimistic update in place, then either send the reaction over
the WebSocket (returning true) or fall back to the REST endpoint,
replacing the local message with the server response on success. The
result is the messages list, the returned Boolean, and whether the
reaction went out over the WebSocket. -/
def addReactionModel (msgs : List Message) (messageId emoji : String) (uid : Nat)
    (wsConnected : Bool) (restResult : Except Unit Message) :
    List Message × Bool × Bool :=
  match findIndexL (fun m => m.id == messageId) msgs with
  | none =>
      if wsConnected then (msgs, true, true)
      else
        match restResult with
        | .ok _ => (msgs, true, false)
        | .error _ => (msgs, false, false)
  | some i =>
      let mlist := msgs.set i (applyOptimisticReaction uid emoji (msgs.getD i default))
      if wsConnected then (mlist, true, true)
      else
        match restResult with
        | .ok updated => (mlist.set i updated, true, false)
        | .error _ => (mlist, false, false)

lemma findIndexL_some {α : Type} (p : α → Bool) :
    ∀ (l : List α) (i : Nat), findIndexL p l = some i →
      ∃ a, l.get? i = some a ∧ p a = true ∧ l.find? p = some a := by
  intro l
  induction l with
  | nil => intro i h; exact absurd h (by simp [findIndexL])
  | cons a as ih =>
      intro i h
      cases hp : p a with
      | true =>
          have hi : i = 0 := by
            simp [findIndexL, hp] at h
            omega
          subst hi
          exact ⟨a, rfl, hp, List.find?_cons_of_pos as hp⟩
      | false =>
          simp only [findIndexL, hp, Bool.false_eq_true, if_false,
            Option.map_eq_some'] at h
          obtain ⟨j, hj, hi⟩ := h
          obtain ⟨b, hb1, hb2, hb3⟩ := ih j hj
          refine ⟨b, ?_, hb2, ?_⟩
          · rw [← hi]
            simpa using hb1
          · rw [List.find?_cons_of_neg as (by simp [hp])]
            exact hb3

lemma findIndexL_none_find?_none {α : Type} (p : α → Bool) :
    ∀ l : List α, findIndexL p l = none → l.find? p = none := by
  intro l
  induction l with
  | nil => intro _; rfl
  | cons a as ih =>
      intro h
      cases hp : p a with
      | true => simp [findIndexL, hp] at h
      | false =>
          simp only [findIndexL, hp, Bool.false_eq_true, if_false,
            Option.map_eq_none'] at h
          rw [List.find?_cons_of_neg as (by simp [hp])]
          exact ih h

lemma find?_set_of_findIndexL {α : Type} (p : α → Bool) :
    ∀ (l : List α) (i : Nat) (b : α), findIndexL p l = some i → p b = true →
      (l.set i b).find? p = some b := by
  intro l
  induction l with
  | nil => intro i b h; exact absurd h (by simp [findIndexL])
  | cons a as ih =>
      intro i b h hb
      cases hp : p a with
      | true =>
          have hi : i = 0 := by
            simp [findIndexL, hp] at h
            omega
          subst hi
          simpa [List.set] using List.find?_cons_of_pos (p := p) as hb
      | false =>
          simp only [findIndexL, hp, Bool.false_eq_true, if_false,
            Option.map_eq_some'] at h
          obtain ⟨j, hj, hi⟩ := h
          rw [← hi]
          simp only [List.set]
          rw [List.find?_cons_of_neg _ (by simp [hp])]
          exact ih j b hj hb

/-- Claim C8: with the targeted message present at index i, `addReaction`
applies the optimistic update to that message (extending the emoji user
list with the current user, creating the reaction when absent, and never
adding the same user twice), then sends over the WebSocket and returns
true when connected, and otherwise falls back to REST and replaces the
local message with the server response. -/
theorem c8_add_reaction (msgs : List Message) (messageId emoji : String) (uid : Nat)
    (i : Nat) (m : Message)
    (hfind : findIndexL (fun x => x.id == messageId) msgs = some i)
    (hget : msgs.get? i = some m) :
    (uid ∈ usersFor m emoji → applyOptimisticReaction uid emoji m = m) ∧
    (uid ∉ usersFor m emoji →
      usersFor (applyOptimisticReaction uid emoji m) emoji
        = usersFor m emoji ++ [uid]) ∧
    (∀ restResult, addReactionModel msgs messageId emoji uid true restResult
        = (msgs.set i (applyOptimisticReaction uid emoji m), true, true)) ∧
    (∀ u, addReactionModel msgs messageId emoji uid false (Except.ok u)
        = ((msgs.set i (applyOptimisticReaction uid emoji m)).set i u, true, false)) := by
  have hgE : msgs[i]? = some m := by
    rw [← List.get?_eq_getElem?]
    exact hget
  have hdispatch1 : ∀ restResult, addReactionModel msgs messageId emoji uid true restResult
      = (msgs.set i (applyOptimisticReaction uid emoji m), true, true) := by
    intro restResult
    simp [addReactionModel, hfind, hgE]
  have hdispatch2 : ∀ u, addReactionModel msgs messageId emoji uid false (Except.ok u)
      = ((msgs.set i (applyOptimisticReaction uid emoji m)).set i u, true, false) := by
    intro u
    simp [addReactionModel, hfind, hgE]
  cases cr : findIndexL (fun r => r.emoji == emoji) m.reactions with
  | none =>
      have hnone : m.reactions.find? (fun r => r.emoji == emoji) = none :=
        findIndexL_none_find?_none _ _ cr
      have husers : usersFor m emoji = [] := by simp [usersFor, hnone]
      refine ⟨?_, ?_, hdispatch1, hdispatch2⟩
      · intro hu
        rw [husers] at hu
        exact absurd hu (by simp)
      · intro _
        have happ : applyOptimisticReaction uid emoji m
            = { m with reactions := m.reactions ++ [⟨emoji, [uid]⟩] } := by
          simp [applyOptimisticReaction, cr]
        rw [happ, husers]
        simp [usersFor, List.find?_append, hnone]
  | some ri =>
      obtain ⟨r, hr1, hr2, hr3⟩ := findIndexL_some _ m.reactions ri cr
      have hr1E : m.reactions[ri]? = some r := by
        rw [← List.get?_eq_getElem?]
        exact hr1
      have husers : usersFor m emoji = r.users := by simp [usersFor, hr3]
      by_cases hmem : uid ∈ r.users
      · have happ : applyOptimisticReaction uid emoji m = m := by
          simp [applyOptimisticReaction, cr, hr1E, hmem]
        refine ⟨fun _ => happ, ?_, hdispatch1, hdispatch2⟩
        intro hu
        rw [husers] at hu
        exact absurd hmem hu
      · have happ : applyOptimisticReaction uid emoji m
            = { m with
                reactions := m.reactions.set ri { r with users := r.users ++ [uid] } } := by
          simp [applyOptimisticReaction, cr, hr1E, hmem]
        refine ⟨?_, ?_, hdispatch1, hdispatch2⟩
        · intro hu
          rw [husers] at hu
          exact absurd hu hmem
        · intro _
          rw [happ, husers]
          have hfset := find?_set_of_findIndexL (fun r => r.emoji == emoji)
            m.reactions ri { r with users := r.users ++ [uid] } cr hr2
          simp [usersFor, hfset]

/-- Message used by the C8 witness. -/
def c8Msg : Message := ⟨"m1", "th", 1, "x", [⟨"thumbs", [2]⟩]⟩

/-- Server response used by the C8 witness. -/
def c8Upd : Message := ⟨"m1", "th", 1, "x", [⟨"thumbs", [2, 7]⟩]⟩

/-- Witness for C8 at a concrete message list. -/
theorem c8_add_reaction_witness :
    usersFor (applyOptimisticReaction 7 "thumbs" c8Msg) "thumbs"
      = usersFor c8Msg "thumbs" ++ [7] ∧
    addReactionModel [c8Msg] "m1" "thumbs" 7 true (Except.error ())
      = ([c8Msg].set 0 (applyOptimisticReaction 7 "thumbs" c8Msg), true, true) ∧
    addReactionModel [c8Msg] "m1" "thumbs" 7 false (Except.ok c8Upd)
      = (([c8Msg].set 0 (applyOptimisticReaction 7 "thumbs" c8Msg)).set 0 c8Upd,
          true, false) :=
  ⟨(c8_add_reaction [c8Msg] "m1" "thumbs" 7 0 c8Msg (by decide) rfl).2.1 (by decide),
   (c8_add_reaction [c8Msg] "m1" "thumbs" 7 0 c8Msg (by decide) rfl).2.2.1
     (Except.error ()),
   (c8_add_reaction [c8Msg] "m1" "thumbs" 7 0 c8Msg (by decide) rfl).2.2.2 c8Upd⟩

/-! ## File upload validation -/

/-- The fields of a `File` read by `validateFile`. -/
structure FileInfo where
  size : Nat
  type : String
  name : String
deriving DecidableEq, Repr

/-- Constant `MAX_SIZE` of `validateFile` (10 MB). -/
def MAX_SIZE : Nat := 10 * 1024 * 1024

/-- Constant `ALLOWED_TYPES` of `validateFile`. -/
def ALLOWED_TYPES : List String :=
  ["application/pdf",
   "application/msword",
   "application/vnd.openxmlformats-officedocument.wordprocessingml.document",
   "application/vnd.ms-excel",
   "application/vnd.openxmlformats-officedocument.spreadsheetml.sheet",
   "text/plain",
   "image/jpeg",
   "image/jpg",
   "image/png",
   "image/gif"]

/-- The object returned by `validateFile`. -/
structure ValidationResult where
  valid : Bool
  error : Option String
deriving DecidableEq, Repr

/-- The size error string of `validateFile`. -/
def sizeError : String := "File size exceeds maximum limit of 10 MB"

/-- The type error string of `validateFile`. -/
def typeError : String :=
  "File type not allowed. Allowed types: PDF, DOC, DOCX, XLS, XLSX, TXT, JPG, PNG, GIF"

/-- The filename error string of `validateFile`. -/
def nameError : String := "Filename exceeds maximum length of 255 characters"

/-- Function `validateFile`: size check, then type check, then filename
length check. -/
def validateFile (f : FileInfo) : ValidationResult :=
  if f.size > MAX_SIZE then ⟨false, some sizeError⟩
  else if f.type ∉ ALLOWED_TYPES then ⟨false, some typeError⟩
  else if f.name.length > 255 then ⟨false, some nameError⟩
  else ⟨true, none⟩

/-- Claim C9: `validateFile` accepts exactly the files of size at most
10 * 1024 * 1024 bytes (10 MB itself included), of one of the ten allowed
MIME types, and with a name of at most 255 characters; rejections carry a
non-empty error message, and the checks run in the order size, type,
name. -/
theorem c9_validate_file (f : FileInfo) :
    ((validateFile f).valid = true ↔
      (f.size ≤ MAX_SIZE ∧ f.type ∈ ALLOWED_TYPES ∧ f.name.length ≤ 255)) ∧
    ((validateFile f).valid = false →
      ∃ e, (validateFile f).error = some e ∧ e ≠ "") ∧
    (f.size > MAX_SIZE → validateFile f = ⟨false, some sizeError⟩) ∧
    (f.size ≤ MAX_SIZE → f.type ∉ ALLOWED_TYPES →
      validateFile f = ⟨false, some typeError⟩) ∧
    (f.size ≤ MAX_SIZE → f.type ∈ ALLOWED_TYPES → f.name.length > 255 →
      validateFile f = ⟨false, some nameError⟩) ∧
    ALLOWED_TYPES.length = 10 := by
  by_cases h1 : f.size > MAX_SIZE
  · have hval : validateFile f = ⟨false, some sizeError⟩ := by
      simp [validateFile, h1]
    refine ⟨?_, ?_, fun _ => hval, ?_, ?_, rfl⟩
    · rw [hval]
      constructor
      · intro h
        exact absurd h (by simp)
      · rintro ⟨hs, -, -⟩
        exact absurd hs (by omega)
    · intro _
      exact ⟨sizeError, by rw [hval], by decide⟩
    · intro hs _
      exact absurd hs (by omega)
    · intro hs _ _
      exact absurd hs (by omega)
  · by_cases h2 : f.type ∈ ALLOWED_TYPES
    · by_cases h3 : f.name.length > 255
      · have hval : validateFile f = ⟨false, some nameError⟩ := by
          simp [validateFile, h1, h2, h3]
        refine ⟨?_, ?_, ?_, ?_, fun _ _ _ => hval, rfl⟩
        · rw [hval]
          constructor
          · intro h
            exact absurd h (by simp)
          · rintro ⟨-, -, hn⟩
            exact absurd hn (by omega)
        · intro _
          exact ⟨nameError, by rw [hval], by decide⟩
        · intro hgt
          exact absurd hgt h1
        · intro _ hnm
          exact absurd h2 hnm
      · have hval : validateFile f = ⟨true, none⟩ := by
          simp [validateFile, h1, h2, h3]
        refine ⟨?_, ?_, ?_, ?_, ?_, rfl⟩
        · rw [hval]
          simp only [true_iff]
          exact ⟨by omega, h2, by omega⟩
        · rw [hval]
          intro h
          exact absurd h (by simp)
        · intro hgt
          exact absurd hgt h1
        · intro _ hnm
          exact absurd h2 hnm
        · intro _ _ hgt
          exact absurd hgt h3
    · have hval : validateFile f = ⟨false, some typeError⟩ := by
        simp [validateFile, h1, h2]
      refine ⟨?_, ?_, ?_, fun _ _ => hval, ?_, rfl⟩
      · rw [hval]
        constructor
        · intro h
          exact absurd h (by simp)
        · rintro ⟨-, hm, -⟩
          exact absurd hm h2
      · intro _
        exact ⟨typeError, by rw [hval], by decide⟩
      · intro hgt
        exact absurd hgt h1
      · intro _ hm _
        exact absurd hm h2

/-- Witness for C9: exactly 10 MB with an allowed type is accepted; one
byte more is rejected with the size error; a disallowed type is rejected
with the type error. -/
theorem c9_validate_file_witness :
    ((validateFile ⟨10 * 1024 * 1024, "application/pdf", "a.pdf"⟩).valid = true ↔
      ((10 * 1024 * 1024 : Nat) ≤ MAX_SIZE ∧
        ("application/pdf" : String) ∈ ALLOWED_TYPES ∧
        ("a.pdf" : String).length ≤ 255)) ∧
    validateFile ⟨10 * 1024 * 1024 + 1, "application/pdf", "a.pdf"⟩
      = ⟨false, some sizeError⟩ ∧
    validateFile ⟨1, "application/zip", "a.zip"⟩ = ⟨false, some typeError⟩ :=
  ⟨(c9_validate_file ⟨10 * 1024 * 1024, "application/pdf", "a.pdf"⟩).1,
   (c9_validate_file ⟨10 * 1024 * 1024 + 1, "application/pdf", "a.pdf"⟩).2.2.1
     (by decide),
   (c9_validate_file ⟨1, "application/zip", "a.zip"⟩).2.2.2.1 (by decide) (by decide)⟩

/-! ## Device fingerprint fallback format -/

/-- The regex call `match(/.{1,2}/g)`: greedy split into chunks of two
characters, a final single character forming a chunk of one. -/
def chunkPairs : List Char → List (List Char)
  | [] => []
  | [c] => [[c]]
  | a :: b :: rest => [a, b] :: chunkPairs rest

/-- The string pipeline of `generateSimpleFallbackId` applied to the
stored `whso_device_id`:
`deviceId.substring(0, 12)`, then removal of every dash, then pairing via
`match(/.{1,2}/g)` joined with colons, with the constant fallback when the
match returns null (empty input). -/
def fallbackMacFromDeviceId (deviceId : String) : String :=
  let first12 := deviceId.data.take 12
  let noDashes := first12.filter (fun c => !(c == '-'))
  match chunkPairs noDashes with
  | [] => "00:00:00:00:00:00"
  | gs => String.intercalate ":" (gs.map (fun g => String.mk g))

/-- Hexadecimal digit test. -/
def isHexDigit (c : Char) : Bool :=
  (('0' ≤ c && c ≤ '9') || ('a' ≤ c && c ≤ 'f') || ('A' ≤ c && c ≤ 'F'))

/-- Split a character list on colons. -/
def splitOnColon : List Char → List (List Char)
  | [] => [[]]
  | c :: rest =>
      if c = ':' then [] :: splitOnColon rest
      else
        match splitOnColon rest with
        | g :: gs => (c :: g) :: gs
        | [] => [[c]]

/-- The pseudo-MAC format of the documentation: exactly six groups of two
hexadecimal characters separated by colons. -/
def isMacFormat (s : String) : Bool :=
  let gs := splitOnColon s.data
  gs.length == 6 && gs.all (fun g => g.length == 2 && g.all isHexDigit)

/-- Claim C10 evaluated at the failing input: for a stored device id in
UUID format, the fallback path keeps only eleven hexadecimal characters of
the first twelve (one is the dash), so the produced string ends in a
one-character group and does not have the documented six-groups-of-two
pseudo-MAC format. -/
theorem c10_fallback_mac_malformed :
    fallbackMacFromDeviceId "abcdef12-3456-4789-a012-3456789abcde"
      = "ab:cd:ef:12:34:5" ∧
    isMacFormat "ab:cd:ef:12:34:5" = false ∧
    isMacFormat "ab:cd:ef:12:34:56" = true := by
  exact ⟨rfl, rfl, rfl⟩

end WHSO
